import Mathlib

/-!
Verification of the candidate-preparation layer of the spray web fuzzer,
a shallow embedding of `internal/option.go`.

Go strings are modelled as `List Char`; Go `int` as `Int` where overflow or
negativity matters and `Nat` for list lengths; fallible code returns
`Except`/`Option` (a Go panic is `Option.none`).
-/

namespace Spray

/-! ## Go `strings` package primitives used by `option.go` -/

/-- Helper for `stringsSplit`: accumulates the current field (reversed). -/
def splitOnAux (sep : Char) : List Char → List Char → List (List Char)
  | [], acc => [acc.reverse]
  | c :: rest, acc =>
      if c = sep then acc.reverse :: splitOnAux sep rest []
      else splitOnAux sep rest (c :: acc)

/-- Go `strings.Split(s, sep)` for a one-character separator.
Like Go, `stringsSplit [] c = [[]]` (splitting the empty string yields one
empty field). -/
def stringsSplit (s : List Char) (sep : Char) : List (List Char) :=
  splitOnAux sep s []

/-- Go `strings.Index(s, c)` for a one-character needle: the index of the
first occurrence, `none` standing for Go result `-1`. -/
def firstIndexOf (c : Char) : List Char → Option Nat
  | [] => none
  | x :: rest => if x = c then some 0 else (firstIndexOf c rest).map (· + 1)

/-- Go `strings.HasSuffix(s, suffix)`. -/
def goHasSuffix (s suf : List Char) : Bool :=
  decide (suf.length ≤ s.length) && decide (s.drop (s.length - suf.length) = suf)

/-- Go `strings.TrimSuffix(s, suffix)`: `s[:len(s)-len(suffix)]` when the
suffix is present, otherwise `s` unchanged. -/
def goTrimSuffix (s suf : List Char) : List Char :=
  if goHasSuffix s suf then s.take (s.length - suf.length) else s

/-! ## File-local helpers of `option.go` -/

/-- `parseExtension` (option.go:432-437): everything after the FIRST dot of
`s` (Go `strings.Index` + `s[i+1:]`), or the empty string when `s` has no
dot. -/
def parseExtension : List Char → List Char
  | [] => []
  | c :: rest => if c = '.' then rest else parseExtension rest

/-- `StringsContains` (option.go:439-446): linear membership scan. -/
def StringsContains : List (List Char) → List Char → Bool
  | [], _ => false
  | v :: rest, e => if v = e then true else StringsContains rest e

/-! ## Data model -/

/-- `Task` (option.go:457-462). -/
structure Task where
  baseUrl : List Char
  offset : Int
  total : Int
  depth : Int := 0
  deriving Repr, DecidableEq

/-- The fields of `pkg.Statistor` that the resume path of `PrepareRunner`
reads (option.go:273-275). -/
structure Statistor where
  BaseUrl : List Char
  Offset : Int
  ReqNumber : Int
  deriving Repr, DecidableEq

/-- The `Option` fields consulted by the fragments of `PrepareRunner`
verified here (option.go:21-91).  Defaults mirror the flag defaults in the
struct tags. -/
structure Opt where
  Uppercase : Bool := false
  Lowercase : Bool := false
  RemoveExtensions : List Char := []
  ExcludeExtensions : List Char := []
  Replaces : List (List Char × List Char) := []
  Force : Bool := false
  CheckPeriod : Int := 200
  ErrPeriod : Int := 10
  BreakThreshold : Int := 20
  Match : List Char := []
  Filter : List Char := []
  Recursive : List Char := ['c', 'u', 'r', 'r', 'e', 'n', 't', '.', 'I', 's', 'D', 'i', 'r', '(', ')']
  Headers : List (List Char) := []
  Offset : Int := 0
  Limit : Int := 0

/-! ## `PrepareRunner` fragment: declared total (option.go:252-262) -/

/-- Lines 252-256: the declared candidate total before the limit cap;
`wordlist` and `rules` are the outputs of the external `mask.Run` and
`rule.Compile` collaborators. -/
def runnerTotal (wordlist : List (List Char)) (rules : List (List Char)) : Nat :=
  if rules.length > 0 then wordlist.length * rules.length else wordlist.length

/-- Lines 258-262: the limit cap applied after the declared total. -/
def applyLimit (off lim : Int) (total : Int) : Int :=
  if lim ≠ 0 then (if off + lim < total then off + lim else total) else total

/-! ## `PrepareRunner` fragment: resume (option.go:267-275) -/

/-- Line 274: the `Task` rebuilt from one snapshot record on resume. -/
def resumeTask (total : Int) (stat : Statistor) : Task :=
  { baseUrl := stat.BaseUrl, offset := stat.Offset + stat.ReqNumber, total := total }

/-- Lines 273-275: one `Task` per snapshot returned by `pkg.ReadStatistors`. -/
def resumeTasks (total : Int) (stats : List Statistor) : List Task :=
  stats.map (resumeTask total)

/-- Modelled from the spec: `pkg.ReadStatistors` (the snapshot reader is in
package pkg, not under src/).  Per the spec sentence "if multiple snapshots
share a baseUrl, the most recent wins", it returns, for each baseUrl, only
the most recent of the stored records; `records` is in file order, later
entries more recent, so a record is kept exactly when no later record
shares its baseUrl. -/
def ReadStatistors : List Statistor → List Statistor
  | [] => []
  | s :: rest =>
      if rest.any (fun t => t.BaseUrl == s.BaseUrl) then ReadStatistors rest
      else s :: ReadStatistors rest

/-- The most recent record for a given baseUrl: the last matching entry. -/
def lastWith (u : List Char) : List Statistor → Option Statistor
  | [] => none
  | s :: rest =>
      match lastWith u rest with
      | some t => some t
      | none => if s.BaseUrl = u then some s else none

/-! ## `PrepareRunner` fragment: circuit-breaker parameters
(option.go:99-117 and 148-153) -/

/-- The breaker-related fields of `Runner` (option.go:114-116). -/
structure RunnerBreaker where
  CheckPeriod : Int
  ErrPeriod : Int
  BreakThreshold : Int
  deriving Repr, DecidableEq

/-- Modelled from the spec: the package constant `max` used at
option.go:150-152 is declared outside `option.go` (not under src/); the
spec describes it as the effectively-infinite sentinel disabling the
breaker.  Its exact value (MaxInt32 here) is irrelevant to the theorems,
which treat it symbolically. -/
def maxVal : Int := 2147483647

/-- Lines 114-116 followed by lines 148-153: the breaker parameters are
copied from the options, then overwritten with the sentinel when Force is
set. -/
def setupBreaker (opt : Opt) : RunnerBreaker :=
  let r : RunnerBreaker :=
    { CheckPeriod := opt.CheckPeriod, ErrPeriod := opt.ErrPeriod,
      BreakThreshold := opt.BreakThreshold }
  if opt.Force then
    { r with BreakThreshold := maxVal, CheckPeriod := maxVal, ErrPeriod := maxVal }
  else r

/-! ## `PrepareRunner` fragment: the decorator chain (option.go:313-347) -/

/-- The remove-extension decorator body (option.go:322-327), applied to the
extension list it is built with. -/
def removeExtFn (rexts : List (List Char)) (s : List Char) : List Char :=
  let ext := parseExtension s
  if StringsContains rexts ext then goTrimSuffix s ('.' :: ext) else s

/-- The exclude-extension decorator body (option.go:332-337): an empty
result is the drop signal. -/
def excludeExtFn (exexts : List (List Char)) (s : List Char) : List Char :=
  let ext := parseExtension s
  if StringsContains exexts ext then [] else s

/-- Go `strings.Replace(s, k, v, -1)` for non-empty `k` (the degenerate
empty-pattern case of Go Replace is not exercised by any decorator claim). -/
def replaceAll (k v : List Char) : List Char → List Char
  | [] => []
  | c :: rest =>
      if h : 0 < k.length ∧ (c :: rest).take k.length = k then
        v ++ replaceAll k v ((c :: rest).drop k.length)
      else
        c :: replaceAll k v rest
  termination_by s => s.length
  decreasing_by
  · simp only [List.length_drop, List.length_cons]
    omega
  · simp

/-- The literal-replace decorator body (option.go:341-346); Go map
iteration is modelled as iteration over an association list. -/
def replaceFn (pairs : List (List Char × List Char)) (s : List Char) : List Char :=
  pairs.foldl (fun acc kv => replaceAll kv.1 kv.2 acc) s

/-- Lines 313-347: the ordered decorator chain `r.Fns`.  NOTE: faithful to
the source, the remove-extension decorator is built from
`opt.ExcludeExtensions` (option.go:321 splits the exclude list into
`rexts`), not from `opt.RemoveExtensions`. -/
def buildFns (opt : Opt) : List (List Char → List Char) :=
  (if opt.Uppercase then [List.map Char.toUpper] else []) ++
  (if opt.Lowercase then [List.map Char.toLower] else []) ++
  (if opt.RemoveExtensions ≠ [] then
      [removeExtFn (stringsSplit opt.ExcludeExtensions ',')] else []) ++
  (if opt.ExcludeExtensions ≠ [] then
      [excludeExtFn (stringsSplit opt.ExcludeExtensions ',')] else []) ++
  (if opt.Replaces.length > 0 then [replaceFn opt.Replaces] else [])

/-! ## `Validate` and the `PrepareRunner` entry gate
(option.go:407-413 and 93-97) -/

/-- `Validate` (option.go:407-413): false exactly when both case flags are
set. -/
def Validate (opt : Opt) : Bool :=
  if opt.Uppercase && opt.Lowercase then false else true

/-- Lines 94-97: `PrepareRunner` aborts with an error before doing anything
else when `Validate` fails. -/
def validateGate (opt : Opt) : Except String Unit :=
  if Validate opt then Except.ok () else Except.error "validate failed"

/-! ## `PrepareRunner` fragment: expression compilation (option.go:350-370) -/

/-- Opaque stand-in for the compiled program returned by the external
`expr.Compile` collaborator; setup only stores it, never runs it. -/
structure CompiledExpr where
  source : List Char
  deriving Repr, DecidableEq

/-- The shared shape of lines 350-356 and 358-364: an empty option skips
compilation, a non-empty one compiles and propagates the error. -/
def compileField (compile : List Char → Except (List Char) CompiledExpr)
    (s : List Char) : Except (List Char) (Option CompiledExpr) :=
  if s = [] then Except.ok none else (compile s).map some

/-- Lines 350-370: match, then filter, then the (unconditional) recursive
expression are compiled; the first compile error aborts `PrepareRunner`.
The external compiler is a parameter: setup never evaluates expressions. -/
def prepareExprs (compile : List Char → Except (List Char) CompiledExpr)
    (opt : Opt) :
    Except (List Char) (Option CompiledExpr × Option CompiledExpr × CompiledExpr) :=
  match compileField compile opt.Match with
  | .error e => .error e
  | .ok m =>
      match compileField compile opt.Filter with
      | .error e => .error e
      | .ok f =>
          match compile opt.Recursive with
          | .error e => .error e
          | .ok r => .ok (m, f, r)

/-! ## `PrepareRunner` fragment: header parsing (option.go:372-380) -/

/-- Lines 373-379 for a single header string: no colon means the header is
warned about and skipped (`some none`); otherwise the key is `h[:i]` and
the value `h[i+2:]`, which in Go panics when `i+2 > len(h)` - modelled as
`none`. -/
def parseHeader (h : List Char) : Option (Option (List Char × List Char)) :=
  match firstIndexOf ':' h with
  | none => some none
  | some i =>
      if i + 2 ≤ h.length then some (some (h.take i, h.drop (i + 2)))
      else none

/-! ## Helper lemmas -/

/-- `StringsContains` agrees with list membership. -/
theorem StringsContains_iff (l : List (List Char)) (e : List Char) :
    StringsContains l e = true ↔ e ∈ l := by
  induction l with
  | nil => simp [StringsContains]
  | cons v rest ih =>
      by_cases hv : v = e
      · simp [StringsContains, hv]
      · simp only [StringsContains, if_neg hv, ih, List.mem_cons]
        constructor
        · exact Or.inr
        · rintro (h | h)
          · exact absurd h.symm hv
          · exact h

/-- Every record kept by the dedup pass was among the stored records. -/
theorem ReadStatistors_subset (l : List Statistor) :
    ∀ s ∈ ReadStatistors l, s ∈ l := by
  induction l with
  | nil => intro s hs; exact absurd hs (List.not_mem_nil s)
  | cons a rest ih =>
      intro s hs
      by_cases hany : rest.any (fun t => t.BaseUrl == a.BaseUrl) = true
      · rw [ReadStatistors, if_pos hany] at hs
        exact List.mem_cons_of_mem a (ih s hs)
      · rw [ReadStatistors, if_neg hany] at hs
        rcases List.mem_cons.mp hs with h | h
        · exact h ▸ List.mem_cons_self a rest
        · exact List.mem_cons_of_mem a (ih s h)

/-- The dedup pass keeps at most one record per baseUrl. -/
theorem ReadStatistors_pairwise (l : List Statistor) :
    (ReadStatistors l).Pairwise (fun a b => a.BaseUrl ≠ b.BaseUrl) := by
  induction l with
  | nil => exact List.Pairwise.nil
  | cons a rest ih =>
      by_cases hany : rest.any (fun t => t.BaseUrl == a.BaseUrl) = true
      · rw [ReadStatistors, if_pos hany]
        exact ih
      · rw [ReadStatistors, if_neg hany]
        refine List.Pairwise.cons (fun b hb => ?_) ih
        have hb' : b ∈ rest := ReadStatistors_subset rest b hb
        have := (List.any_eq_false.mp (Bool.eq_false_iff.mpr hany)) b hb'
        intro heq
        exact this (beq_iff_eq.mpr heq.symm)

/-- `lastWith` finds nothing exactly when no record has the baseUrl. -/
theorem lastWith_eq_none (u : List Char) (l : List Statistor) :
    lastWith u l = none ↔ ∀ t ∈ l, t.BaseUrl ≠ u := by
  induction l with
  | nil => simp [lastWith]
  | cons a rest ih =>
      rw [lastWith]
      rcases hr : lastWith u rest with _ | t
      · simp only []
        constructor
        · intro hif t ht
          rcases List.mem_cons.mp ht with h | h
          · subst h
            intro heq
            rw [if_pos heq] at hif
            exact Option.noConfusion hif
          · exact ih.mp hr t h
        · intro hall
          exact if_neg (hall a (List.mem_cons_self a rest))
      · simp only []
        constructor
        · intro hif
          exact absurd hif (Option.noConfusion)
        · intro hall
          have : lastWith u rest ≠ none := by rw [hr]; exact Option.noConfusion
          exact absurd (ih.mpr (fun t ht => hall t (List.mem_cons_of_mem a ht))) this

/-- Every record kept by the dedup pass is the most recent one for its
baseUrl. -/
theorem ReadStatistors_lastWith (l : List Statistor) :
    ∀ s ∈ ReadStatistors l, lastWith s.BaseUrl l = some s := by
  induction l with
  | nil => intro s hs; exact absurd hs (List.not_mem_nil s)
  | cons a rest ih =>
      intro s hs
      by_cases hany : rest.any (fun t => t.BaseUrl == a.BaseUrl) = true
      · rw [ReadStatistors, if_pos hany] at hs
        rw [lastWith, ih s hs]
      · rw [ReadStatistors, if_neg hany] at hs
        rcases List.mem_cons.mp hs with h | h
        · subst h
          have hnone : lastWith s.BaseUrl rest = none := by
            refine (lastWith_eq_none _ _).mpr (fun t ht heq => ?_)
            exact (List.any_eq_false.mp (Bool.eq_false_iff.mpr hany)) t ht (beq_iff_eq.mpr heq)
          rw [lastWith, hnone]
          exact if_pos rfl
        · rw [lastWith, ih s h]

/-- Every stored baseUrl survives the dedup pass. -/
theorem ReadStatistors_covers (l : List Statistor) :
    ∀ s ∈ l, ∃ t ∈ ReadStatistors l, t.BaseUrl = s.BaseUrl := by
  induction l with
  | nil => intro s hs; exact absurd hs (List.not_mem_nil s)
  | cons a rest ih =>
      intro s hs
      by_cases hany : rest.any (fun t => t.BaseUrl == a.BaseUrl) = true
      · rw [ReadStatistors, if_pos hany]
        rcases List.mem_cons.mp hs with h | h
        · subst h
          rcases List.any_eq_true.mp hany with ⟨t, ht, heq⟩
          rcases ih t ht with ⟨t', ht', heq'⟩
          exact ⟨t', ht', heq'.trans (beq_iff_eq.mp heq)⟩
        · exact ih s h
      · rw [ReadStatistors, if_neg hany]
        rcases List.mem_cons.mp hs with h | h
        · exact ⟨a, List.mem_cons_self _ _, h ▸ rfl⟩
        · rcases ih s h with ⟨t', ht', heq'⟩
          exact ⟨t', List.mem_cons_of_mem a ht', heq'⟩

/-! ## Theorems -/

/-- C5: with Force set, all three breaker parameters - break threshold,
check period and error period - are the effectively-infinite sentinel,
whatever was configured; with Force unset the configured values are kept. -/
theorem claim_C5_force_disables_breaker (opt : Opt) :
    (opt.Force = true →
      setupBreaker opt =
        { CheckPeriod := maxVal, ErrPeriod := maxVal, BreakThreshold := maxVal }) ∧
    (opt.Force = false →
      setupBreaker opt =
        { CheckPeriod := opt.CheckPeriod, ErrPeriod := opt.ErrPeriod,
          BreakThreshold := opt.BreakThreshold }) := by
  constructor <;> intro h <;> simp [setupBreaker, h]

/-- Witness for C5: a forced configuration with non-default thresholds is
fully overridden; the default configuration keeps 200, 10, 20. -/
theorem claim_C5_force_disables_breaker_witness :
    (({ Force := true, CheckPeriod := 7, ErrPeriod := 8, BreakThreshold := 9 } : Opt).Force = true ∧
      setupBreaker { Force := true, CheckPeriod := 7, ErrPeriod := 8, BreakThreshold := 9 } =
        { CheckPeriod := maxVal, ErrPeriod := maxVal, BreakThreshold := maxVal }) ∧
    (({} : Opt).Force = false ∧
      setupBreaker {} = { CheckPeriod := 200, ErrPeriod := 10, BreakThreshold := 20 }) :=
  ⟨⟨rfl, (claim_C5_force_disables_breaker _).1 rfl⟩,
   ⟨rfl, (claim_C5_force_disables_breaker _).2 rfl⟩⟩

/-- The configuration of the C1 failing input: remove-extension "php"
configured, exclude-extension left empty. -/
def optC1 : Opt := { RemoveExtensions := ['p', 'h', 'p'] }

/-- C1 (code bug): with remove-extension "php" and no exclude-extension,
the only decorator installed is the remove decorator, and - because
option.go:321 splits `opt.ExcludeExtensions` instead of
`opt.RemoveExtensions` - it leaves "index.php" unchanged even though the
parsed extension "php" is a member of the configured remove-extension
list. -/
theorem claim_C1_remove_consults_exclude_list :
    buildFns optC1 = [removeExtFn (stringsSplit optC1.ExcludeExtensions ',')] ∧
    removeExtFn (stringsSplit optC1.ExcludeExtensions ',')
        ['i', 'n', 'd', 'e', 'x', '.', 'p', 'h', 'p'] =
      ['i', 'n', 'd', 'e', 'x', '.', 'p', 'h', 'p'] ∧
    StringsContains (stringsSplit optC1.RemoveExtensions ',')
        (parseExtension ['i', 'n', 'd', 'e', 'x', '.', 'p', 'h', 'p']) = true := by
  refine ⟨?_, by decide, by decide⟩
  simp [buildFns, optC1]

/-- C6: when the exclude-extension option is non-empty, the exclude
decorator is installed in the chain and returns the empty string (the drop
signal) when the parsed extension of the candidate is in the
exclude-extension list, and the candidate unchanged otherwise. -/
theorem claim_C6_exclude_drop_signal (opt : Opt)
    (h : opt.ExcludeExtensions ≠ []) (s : List Char) :
    excludeExtFn (stringsSplit opt.ExcludeExtensions ',') ∈ buildFns opt ∧
    (parseExtension s ∈ stringsSplit opt.ExcludeExtensions ',' →
      excludeExtFn (stringsSplit opt.ExcludeExtensions ',') s = []) ∧
    (parseExtension s ∉ stringsSplit opt.ExcludeExtensions ',' →
      excludeExtFn (stringsSplit opt.ExcludeExtensions ',') s = s) := by
  refine ⟨?_, ?_, ?_⟩
  · unfold buildFns
    rw [if_pos h]
    simp
  · intro hmem
    simp only [excludeExtFn]
    rw [if_pos ((StringsContains_iff _ _).mpr hmem)]
  · intro hmem
    simp only [excludeExtFn]
    rw [if_neg (fun hc => hmem ((StringsContains_iff _ _).mp hc))]

/-- The configuration of the C6 witness: exclude-extension "php". -/
def optC6 : Opt := { ExcludeExtensions := ['p', 'h', 'p'] }

/-- Witness for C6: with exclude list ["php"], the candidate "index.php"
is dropped. -/
theorem claim_C6_exclude_drop_signal_witness :
    optC6.ExcludeExtensions ≠ [] ∧
    (excludeExtFn (stringsSplit optC6.ExcludeExtensions ',') ∈ buildFns optC6 ∧
     (parseExtension ['i', 'n', 'd', 'e', 'x', '.', 'p', 'h', 'p'] ∈
        stringsSplit optC6.ExcludeExtensions ',' →
       excludeExtFn (stringsSplit optC6.ExcludeExtensions ',')
         ['i', 'n', 'd', 'e', 'x', '.', 'p', 'h', 'p'] = []) ∧
     (parseExtension ['i', 'n', 'd', 'e', 'x', '.', 'p', 'h', 'p'] ∉
        stringsSplit optC6.ExcludeExtensions ',' →
       excludeExtFn (stringsSplit optC6.ExcludeExtensions ',')
         ['i', 'n', 'd', 'e', 'x', '.', 'p', 'h', 'p'] =
         ['i', 'n', 'd', 'e', 'x', '.', 'p', 'h', 'p'])) :=
  ⟨by decide, claim_C6_exclude_drop_signal optC6 (by decide) _⟩

/-- C8: with both case flags set, the entry gate of `PrepareRunner`
returns the "validate failed" error; with at most one case flag set,
`Validate` returns true. -/
theorem claim_C8_case_flags (opt : Opt) :
    (opt.Uppercase = true → opt.Lowercase = true →
      validateGate opt = Except.error "validate failed") ∧
    ((opt.Uppercase && opt.Lowercase) = false → Validate opt = true) := by
  constructor
  · intro hu hl
    simp [validateGate, Validate, hu, hl]
  · intro h
    simp [Validate, h]

/-- Witness for C8 at concrete flag settings. -/
theorem claim_C8_case_flags_witness :
    (({ Uppercase := true, Lowercase := true } : Opt).Uppercase = true ∧
     ({ Uppercase := true, Lowercase := true } : Opt).Lowercase = true ∧
     validateGate { Uppercase := true, Lowercase := true } =
       Except.error "validate failed") ∧
    ((({ Uppercase := true } : Opt).Uppercase && ({ Uppercase := true } : Opt).Lowercase) = false ∧
     Validate { Uppercase := true } = true) :=
  ⟨⟨rfl, rfl, (claim_C8_case_flags _).1 rfl rfl⟩,
   ⟨rfl, (claim_C8_case_flags _).2 rfl⟩⟩

/-- C2: for every wordlist and compiled rule list, the declared candidate
total of lines 252-256 equals `wordCount * max(ruleCount, 1)`: with at
least one rule it is `len(wordlist) * len(rules)`, and with no rules it is
`len(wordlist)`. -/
theorem claim_C2_declared_total (wordlist rules : List (List Char)) :
    runnerTotal wordlist rules = wordlist.length * max rules.length 1 := by
  unfold runnerTotal
  rcases rules with _ | ⟨r, rs⟩
  · simp
  · simp [Nat.max_eq_left (Nat.succ_le_succ (Nat.zero_le _))]

/-- C3: every `Task` rebuilt on resume has `offset = snapshot.offset +
snapshot.reqNumber` and `total` equal to the declared run total, unchanged
by the snapshot; in particular offset 500 with reqNumber 50 resumes at
offset 550. -/
theorem claim_C3_resume_offset (total : Int) (stats : List Statistor)
    (t : Task) (h : t ∈ resumeTasks total stats) :
    (∃ stat ∈ stats, t.offset = stat.Offset + stat.ReqNumber ∧ t.total = total
      ∧ t.baseUrl = stat.BaseUrl) ∧
    (∀ u : List Char, (resumeTask total { BaseUrl := u, Offset := 500, ReqNumber := 50 }).offset = 550) := by
  constructor
  · rcases List.mem_map.mp h with ⟨stat, hmem, hEq⟩
    exact ⟨stat, hmem, by rw [← hEq]; exact ⟨rfl, rfl, rfl⟩⟩
  · intro u; rfl

/-- Witness for C3 at a concrete snapshot list. -/
theorem claim_C3_resume_offset_witness :
    (resumeTask 1000 { BaseUrl := ['a'], Offset := 500, ReqNumber := 50 } ∈
      resumeTasks 1000 [{ BaseUrl := ['a'], Offset := 500, ReqNumber := 50 }]) ∧
    ((∃ stat ∈ [({ BaseUrl := ['a'], Offset := 500, ReqNumber := 50 } : Statistor)],
        (resumeTask 1000 { BaseUrl := ['a'], Offset := 500, ReqNumber := 50 }).offset
          = stat.Offset + stat.ReqNumber ∧
        (resumeTask 1000 { BaseUrl := ['a'], Offset := 500, ReqNumber := 50 }).total = 1000 ∧
        (resumeTask 1000 { BaseUrl := ['a'], Offset := 500, ReqNumber := 50 }).baseUrl = stat.BaseUrl) ∧
      (∀ u : List Char, (resumeTask 1000 { BaseUrl := u, Offset := 500, ReqNumber := 50 }).offset = 550)) :=
  ⟨List.mem_singleton.mpr rfl,
    claim_C3_resume_offset 1000 _ _ (List.mem_singleton.mpr rfl)⟩

/-- C4: resuming from a snapshot list yields at most one Task per distinct
baseUrl (pairwise-distinct baseUrls), every stored baseUrl gets a Task, and
each Task is rebuilt from the most recent snapshot for its baseUrl. -/
theorem claim_C4_resume_most_recent_wins (total : Int) (records : List Statistor) :
    (resumeTasks total (ReadStatistors records)).Pairwise
        (fun a b => a.baseUrl ≠ b.baseUrl) ∧
    (∀ s ∈ records,
      ∃ t ∈ resumeTasks total (ReadStatistors records), t.baseUrl = s.BaseUrl) ∧
    (∀ t ∈ resumeTasks total (ReadStatistors records),
      ∃ s, lastWith t.baseUrl records = some s ∧ t = resumeTask total s) := by
  refine ⟨?_, ?_, ?_⟩
  · rw [resumeTasks, List.pairwise_map]
    exact ReadStatistors_pairwise records
  · intro s hs
    rcases ReadStatistors_covers records s hs with ⟨t, ht, heq⟩
    exact ⟨resumeTask total t, List.mem_map_of_mem _ ht, heq⟩
  · intro t ht
    rcases List.mem_map.mp ht with ⟨s, hs, heq⟩
    refine ⟨s, ?_, heq.symm⟩
    rw [← heq]
    exact ReadStatistors_lastWith records s hs

/-- The snapshot list of the C4 witness: two records for baseUrl "a", the
later one with offset 10 and reqNumber 20. -/
def recsC4 : List Statistor := [⟨['a'], 1, 2⟩, ⟨['a'], 10, 20⟩]

/-- Witness for C4: the duplicate baseUrl "a" yields the single Task
rebuilt from the later record, at offset 30. -/
theorem claim_C4_resume_most_recent_wins_witness :
    ((resumeTasks 100 (ReadStatistors recsC4)).Pairwise
        (fun a b => a.baseUrl ≠ b.baseUrl)) ∧
    ((⟨['a'], 1, 2⟩ : Statistor) ∈ recsC4 ∧
      ∃ t ∈ resumeTasks 100 (ReadStatistors recsC4),
        t.baseUrl = (⟨['a'], 1, 2⟩ : Statistor).BaseUrl) ∧
    ((⟨['a'], 30, 100, 0⟩ : Task) ∈ resumeTasks 100 (ReadStatistors recsC4) ∧
      ∃ s, lastWith (⟨['a'], 30, 100, 0⟩ : Task).baseUrl recsC4 = some s ∧
        (⟨['a'], 30, 100, 0⟩ : Task) = resumeTask 100 s) :=
  ⟨(claim_C4_resume_most_recent_wins 100 recsC4).1,
   ⟨by decide, (claim_C4_resume_most_recent_wins 100 recsC4).2.1 _ (by decide)⟩,
   ⟨by decide, (claim_C4_resume_most_recent_wins 100 recsC4).2.2 _ (by decide)⟩⟩

/-- C7: if the match expression is configured and fails to compile, or the
filter expression is configured and fails to compile, or the (always
compiled) recursive expression fails to compile, then the setup phase
returns an error - the run aborts before any request. -/
theorem claim_C7_compile_failure_aborts
    (compile : List Char → Except (List Char) CompiledExpr) (opt : Opt)
    (h : (opt.Match ≠ [] ∧ ∃ e, compile opt.Match = Except.error e) ∨
         (opt.Filter ≠ [] ∧ ∃ e, compile opt.Filter = Except.error e) ∨
         (∃ e, compile opt.Recursive = Except.error e)) :
    ∃ e, prepareExprs compile opt = Except.error e := by
  rcases hm : compileField compile opt.Match with e | m
  · exact ⟨e, by simp [prepareExprs, hm]⟩
  · rcases hf : compileField compile opt.Filter with e | f
    · exact ⟨e, by simp [prepareExprs, hm, hf]⟩
    · rcases hr : compile opt.Recursive with e | r
      · exact ⟨e, by simp [prepareExprs, hm, hf, hr]⟩
      · exfalso
        rcases h with ⟨hne, e, hc⟩ | ⟨hne, e, hc⟩ | ⟨e, hc⟩
        · rw [compileField, if_neg hne, hc] at hm
          exact Except.noConfusion hm
        · rw [compileField, if_neg hne, hc] at hf
          exact Except.noConfusion hf
        · rw [hc] at hr
          exact Except.noConfusion hr

/-- Witness for C7: a compiler failing on the configured match expression
makes setup fail. -/
theorem claim_C7_compile_failure_aborts_witness :
    ((({ Match := ['x'] } : Opt).Match ≠ [] ∧
      ∃ e, (fun _ : List Char => (Except.error ['b'] : Except (List Char) CompiledExpr))
        ({ Match := ['x'] } : Opt).Match = Except.error e) ∨
     (({ Match := ['x'] } : Opt).Filter ≠ [] ∧
      ∃ e, (fun _ : List Char => (Except.error ['b'] : Except (List Char) CompiledExpr))
        ({ Match := ['x'] } : Opt).Filter = Except.error e) ∨
     (∃ e, (fun _ : List Char => (Except.error ['b'] : Except (List Char) CompiledExpr))
        ({ Match := ['x'] } : Opt).Recursive = Except.error e)) ∧
    ∃ e, prepareExprs (fun _ => Except.error ['b']) { Match := ['x'] } = Except.error e :=
  ⟨Or.inl ⟨by decide, ⟨['b'], rfl⟩⟩,
   claim_C7_compile_failure_aborts _ _ (Or.inl ⟨by decide, ⟨['b'], rfl⟩⟩)⟩

/-- C9: `parseExtension` splits at the FIRST dot: prefixed by a dot-free
`a`, the extension of `a ++ "." ++ b` is all of `b` (so "a.tar.gz" yields
"tar.gz"), and a dot-free string has extension "". -/
theorem claim_C9_parseExtension_first_dot :
    (∀ a b : List Char, '.' ∉ a → parseExtension (a ++ '.' :: b) = b) ∧
    (∀ s : List Char, '.' ∉ s → parseExtension s = []) ∧
    parseExtension ['a', '.', 't', 'a', 'r', '.', 'g', 'z'] = ['t', 'a', 'r', '.', 'g', 'z'] := by
  refine ⟨?_, ?_, by decide⟩
  · intro a b ha
    induction a with
    | nil => simp [parseExtension]
    | cons c a ih =>
        rw [List.mem_cons, not_or] at ha
        have hc : ¬ c = '.' := fun hc => ha.1 hc.symm
        simp only [List.cons_append, parseExtension, if_neg hc]
        exact ih ha.2
  · intro s hs
    induction s with
    | nil => rfl
    | cons c s ih =>
        rw [List.mem_cons, not_or] at hs
        have hc : ¬ c = '.' := fun hc => hs.1 hc.symm
        simp only [parseExtension, if_neg hc]
        exact ih hs.2

/-- Witness for C9 at "a" ++ "." ++ "tar.gz" and at the dot-free "file". -/
theorem claim_C9_parseExtension_first_dot_witness :
    ('.' ∉ (['a'] : List Char) ∧
      parseExtension (['a'] ++ '.' :: ['t', 'a', 'r', '.', 'g', 'z']) = ['t', 'a', 'r', '.', 'g', 'z']) ∧
    ('.' ∉ (['f', 'i', 'l', 'e'] : List Char) ∧
      parseExtension ['f', 'i', 'l', 'e'] = []) :=
  ⟨⟨by decide, claim_C9_parseExtension_first_dot.1 ['a'] _ (by decide)⟩,
   ⟨by decide, claim_C9_parseExtension_first_dot.2.1 _ (by decide)⟩⟩

/-- C10 counterexample: header parsing is NOT total - for "Key:" the
colon is first at index 3, the value slice lower bound 3+2 exceeds the
length 4, and the header step panics (modelled as `none`). -/
theorem claim_C10_counterexample :
    firstIndexOf ':' ['K', 'e', 'y', ':'] = some 3 ∧
    ¬ (3 + 2 ≤ (['K', 'e', 'y', ':'] : List Char).length) ∧
    parseHeader ['K', 'e', 'y', ':'] = none := by decide

/-- C10 (amended): for every header whose first colon sits at index `i`,
the value slice `h[i+2:]` is within bounds and parsing succeeds exactly
when `i+2 ≤ len(h)`; when the colon is the final character
(`len(h) < i+2`), the slice is out of bounds and the code panics. -/
theorem claim_C10_header_slice_bounds (h : List Char) (i : Nat)
    (hfind : firstIndexOf ':' h = some i) :
    (i + 2 ≤ h.length → parseHeader h = some (some (h.take i, h.drop (i + 2)))) ∧
    (h.length < i + 2 → parseHeader h = none) := by
  refine ⟨fun hb => ?_, fun hb => ?_⟩
  · simp [parseHeader, hfind, hb]
  · rw [parseHeader, hfind]
    simp only []
    rw [if_neg (by omega)]

/-- Witness for C10 at "Key: v" (in bounds) and "Key:" (out of bounds). -/
theorem claim_C10_header_slice_bounds_witness :
    (firstIndexOf ':' ['K', 'e', 'y', ':', ' ', 'v'] = some 3 ∧
     3 + 2 ≤ (['K', 'e', 'y', ':', ' ', 'v'] : List Char).length ∧
     parseHeader ['K', 'e', 'y', ':', ' ', 'v'] = some (some (['K', 'e', 'y'], ['v']))) ∧
    (firstIndexOf ':' ['K', 'e', 'y', ':'] = some 3 ∧
     (['K', 'e', 'y', ':'] : List Char).length < 3 + 2 ∧
     parseHeader ['K', 'e', 'y', ':'] = none) :=
  ⟨⟨by decide, by decide,
      (claim_C10_header_slice_bounds ['K', 'e', 'y', ':', ' ', 'v'] 3 (by decide)).1 (by decide)⟩,
   ⟨by decide, by decide,
      (claim_C10_header_slice_bounds ['K', 'e', 'y', ':'] 3 (by decide)).2 (by decide)⟩⟩

end Spray
